import Mathlib

/-!
Verification development for the Cohort Pulse repository: a shallow
embedding of the cohort aggregation engine (modelled from `spec.md`, since
the engine itself lives behind the `/analyze`, `/upload` and
`/cohort-matrix` endpoints and is not part of the visible source) together
with embeddings of the client-side code that is present in the source:
the waterfall fetch/recompute controller (`fetchMatrix` in the top-level
App component), the `/analyze` upload controller (`handleFileSelect` in
`frontend/src/App.tsx`), and the cell formatters (`formatCurrency`,
`formatPercent` in `Charts.tsx` / `CohortHeatmap.tsx`).

Months are represented at calendar-month precision: waterfall months as
their `YYYY-MM` string keys (the engine only ever groups and sorts by the
month key), retention months as natural-number month indices (the engine
needs month arithmetic for offsets).  Amounts are rationals `ℚ`, standing
for the engine's exact decimal arithmetic.
-/

namespace CohortPulse

/-- Modelled from the spec: §3 — a Claim-Payment input record
`{claim_id, service_date, date_paid, billed_amount, amount_paid, payer,
service_type}`, with the two dates kept at the calendar-month precision
(`YYYY-MM` string) at which the engine uses them. -/
structure ClaimPayment where
  claim_id : String
  service_month : String
  paid_month : String
  billed_amount : ℚ
  amount_paid : ℚ
  payer : String
  service_type : String
  deriving DecidableEq, Repr

/-- One row of the waterfall matrix, after `MatrixRow` in
`frontend/src/types.ts`: `{dos_month, gross_charge, payments}`, the
`payments` map represented as an association list so that an absent
(cohort, month) cell is representable. -/
structure MatrixRow where
  dos_month : String
  gross_charge : ℚ
  payments : List (String × ℚ)
  deriving DecidableEq, Repr

/-- The totals row of `CohortMatrixData` in `frontend/src/types.ts`. -/
structure TotalsRow where
  gross_charge : ℚ
  payments : List (String × ℚ)
  deriving DecidableEq, Repr

/-- `CohortMatrixData` from `frontend/src/types.ts`:
`{matrix, payment_months, totals}`. -/
structure CohortMatrixData where
  matrix : List MatrixRow
  payment_months : List String
  totals : TotalsRow
  deriving DecidableEq, Repr

/-- Insert a string into a `<`-sorted list of strings (lexicographic order
on the `YYYY-MM` keys is chronological order). -/
def insertStr (a : String) : List String → List String
  | [] => [a]
  | b :: l => if b < a then b :: insertStr a l else a :: b :: l

/-- Sort a list of `YYYY-MM` keys ascending (insertion sort). -/
def sortStrs : List String → List String
  | [] => []
  | a :: l => insertStr a (sortStrs l)

/-- Modelled from the spec: §4.4 — filter predicate for the optional
(payer, service_type) pair; `none` means the filter is not applied. -/
def matchesFilter (payerF stypeF : Option String) (r : ClaimPayment) : Bool :=
  (match payerF with
   | none => true
   | some p => r.payer == p) &&
  (match stypeF with
   | none => true
   | some t => r.service_type == t)

/-- Modelled from the spec: §3, §4.4 — filters never mutate the record
set, they only narrow the view before accumulation. -/
def applyFilter (payerF stypeF : Option String) (rs : List ClaimPayment) :
    List ClaimPayment :=
  rs.filter (matchesFilter payerF stypeF)

/-- Modelled from the spec: §4.4 — gross-charge deduplication by
`claim_id`, first occurrence wins; `seen` is the set of claim ids already
kept. -/
def dedupByClaimAux (seen : List String) : List ClaimPayment → List ClaimPayment
  | [] => []
  | r :: rs =>
      if r.claim_id ∈ seen then dedupByClaimAux seen rs
      else r :: dedupByClaimAux (r.claim_id :: seen) rs

/-- Modelled from the spec: §4.4 — keep only the first row carrying each
`claim_id`. -/
def dedupByClaim (rs : List ClaimPayment) : List ClaimPayment :=
  dedupByClaimAux [] rs

/-- Modelled from the spec: §4.2 (waterfall) — the cohorts are the
distinct service months of the (filtered) records, sorted ascending. -/
def cohortsOf (rs : List ClaimPayment) : List String :=
  sortStrs (rs.map (·.service_month)).dedup

/-- Modelled from the spec: §6 — `payment_months` is the sorted list of
distinct payment months of the (filtered) records. -/
def paymentMonthsOf (rs : List ClaimPayment) : List String :=
  sortStrs (rs.map (·.paid_month)).dedup

/-- Modelled from the spec: §4.4 — gross charge of one cohort: the sum of
`billed_amount` over the first occurrence of each `claim_id` whose
service month is the cohort. -/
def grossChargeOf (rs : List ClaimPayment) (c : String) : ℚ :=
  (((dedupByClaim rs).filter (fun r => r.service_month == c)).map
    (·.billed_amount)).sum

/-- Does record `r` contribute to the payments cell (cohort `c`, payment
month `m`)? -/
def contributes (c m : String) (r : ClaimPayment) : Bool :=
  r.service_month == c && r.paid_month == m

/-- Modelled from the spec: §4.4 — the payments cell for (cohort `c`,
month `m`): sum of `amount_paid` (negatives included) over matching
records. -/
def paymentsCell (rs : List ClaimPayment) (c m : String) : ℚ :=
  ((rs.filter (contributes c m)).map (·.amount_paid)).sum

/-- Modelled from the spec: §3, §4.4 — one matrix row: the matrix is
sparse, a payment key appears in the row only if some record contributed
to that (cohort, month) cell. -/
def matrixRowOf (rs : List ClaimPayment) (months : List String) (c : String) :
    MatrixRow :=
  { dos_month := c
    gross_charge := grossChargeOf rs c
    payments :=
      (months.filter (fun m => rs.any (contributes c m))).map
        (fun m => (m, paymentsCell rs c m)) }

/-- Modelled from the spec: §4.4 — a totals payments cell: column-wise sum
of `amount_paid` over all cohorts. -/
def totalsCell (rs : List ClaimPayment) (m : String) : ℚ :=
  ((rs.filter (fun r => r.paid_month == m)).map (·.amount_paid)).sum

/-- Modelled from the spec: §4.4, §6 — the waterfall aggregation behind
`POST cohort-matrix(rows, payer?, service_type?)`: filter, then one sparse
row per service-month cohort, `payment_months` the sorted distinct payment
months, and a synthetic totals row summing gross charge over cohorts and
payments column-wise. -/
def cohortMatrix (rs : List ClaimPayment) (payerF stypeF : Option String) :
    CohortMatrixData :=
  { matrix :=
      (cohortsOf (applyFilter payerF stypeF rs)).map
        (matrixRowOf (applyFilter payerF stypeF rs)
          (paymentMonthsOf (applyFilter payerF stypeF rs)))
    payment_months := paymentMonthsOf (applyFilter payerF stypeF rs)
    totals :=
      { gross_charge :=
          (((cohortsOf (applyFilter payerF stypeF rs)).map
              (matrixRowOf (applyFilter payerF stypeF rs)
                (paymentMonthsOf (applyFilter payerF stypeF rs)))).map
            (·.gross_charge)).sum
        payments :=
          (paymentMonthsOf (applyFilter payerF stypeF rs)).map
            (fun m => (m, totalsCell (applyFilter payerF stypeF rs) m)) } }

/-- The sample waterfall rows from `LandingPage.tsx` (`analysisConfig`,
claims CLM001/CLM001/CLM002); the first two rows are the two payments of
claim CLM001 used by the spec's dedup example. -/
def clm001a : ClaimPayment :=
  { claim_id := "CLM001", service_month := "2024-01", paid_month := "2024-02"
    billed_amount := 500, amount_paid := 425
    payer := "Blue Cross", service_type := "Office Visit" }

/-- Second payment row of claim CLM001 (same claim id, later payment). -/
def clm001b : ClaimPayment :=
  { claim_id := "CLM001", service_month := "2024-01", paid_month := "2024-03"
    billed_amount := 500, amount_paid := 50
    payer := "Blue Cross", service_type := "Office Visit" }

/-- Reading a payments association list the way the client does
(`row.payments[m] || 0` in `App`/`PayerMatrix`): an absent key reads as 0. -/
def lookupD (ps : List (String × ℚ)) (m : String) : ℚ :=
  (ps.lookup m).getD 0

/-- The (cohort, column) cell of a waterfall matrix as the client reads
it: find the row whose `dos_month` is the cohort, then read the payments
cell, both defaulting to 0 when absent. -/
def matrixCellD (d : CohortMatrixData) (c m : String) : ℚ :=
  ((d.matrix.find? (fun row => row.dos_month == c)).map
    (fun row => lookupD row.payments m)).getD 0

theorem mem_insertStr {x a : String} {l : List String} :
    x ∈ insertStr a l ↔ x = a ∨ x ∈ l := by
  induction l with
  | nil => simp [insertStr]
  | cons b l ih =>
      rw [insertStr]
      split
      · rw [List.mem_cons, ih, List.mem_cons]
        tauto
      · simp only [List.mem_cons]

theorem mem_sortStrs {x : String} {l : List String} :
    x ∈ sortStrs l ↔ x ∈ l := by
  induction l with
  | nil => simp [sortStrs]
  | cons a l ih => simp [sortStrs, mem_insertStr, ih]

theorem dedupByClaimAux_append_dup (extra : ClaimPayment) :
    ∀ (rs : List ClaimPayment) (seen : List String),
      extra.claim_id ∈ seen ∨ extra.claim_id ∈ rs.map (·.claim_id) →
      dedupByClaimAux seen (rs ++ [extra]) = dedupByClaimAux seen rs := by
  intro rs
  induction rs with
  | nil =>
      intro seen h
      rcases h with h | h
      · simp [dedupByClaimAux, h]
      · simp at h
  | cons r rs ih =>
      intro seen h
      rw [List.map_cons, List.mem_cons] at h
      by_cases hr : r.claim_id ∈ seen
      · simp only [List.cons_append, dedupByClaimAux, if_pos hr]
        refine ih seen ?_
        rcases h with h | h | h
        · exact Or.inl h
        · exact Or.inl (h ▸ hr)
        · exact Or.inr h
      · simp only [List.cons_append, dedupByClaimAux, if_neg hr]
        refine congrArg (List.cons r) (ih (r.claim_id :: seen) ?_)
        rcases h with h | h | h
        · exact Or.inl (List.mem_cons_of_mem _ h)
        · exact Or.inl (List.mem_cons.2 (Or.inl h))
        · exact Or.inr h

/-- Appending a further payment row for an already-present `claim_id`
leaves the deduplicated claim list unchanged. -/
theorem dedupByClaim_append_dup (rs : List ClaimPayment) (extra : ClaimPayment)
    (h : extra.claim_id ∈ rs.map (·.claim_id)) :
    dedupByClaim (rs ++ [extra]) = dedupByClaim rs :=
  dedupByClaimAux_append_dup extra rs [] (Or.inr h)

/-- C1: in waterfall mode a claim's `billed_amount` enters its cohort's
gross charge exactly once however many payment rows carry the claim id:
appending a further payment row for an already-present `claim_id` changes
no cohort's gross charge; and on the spec's concrete input — claim CLM001
(billed 500.00, service 2024-01) with payments 425.00 in 2024-02 and 50.00
in 2024-03 — aggregation returns exactly the matrix, payment months and
totals the spec displays. -/
theorem gross_charge_counted_once_per_claim :
    (∀ (rs : List ClaimPayment) (extra : ClaimPayment),
        extra.claim_id ∈ rs.map (·.claim_id) →
        ∀ c, grossChargeOf (rs ++ [extra]) c = grossChargeOf rs c) ∧
    cohortMatrix [clm001a, clm001b] none none =
      { matrix := [{ dos_month := "2024-01", gross_charge := 500,
                     payments := [("2024-02", 425), ("2024-03", 50)] }]
        payment_months := ["2024-02", "2024-03"]
        totals := { gross_charge := 500,
                    payments := [("2024-02", 425), ("2024-03", 50)] } } := by
  constructor
  · intro rs extra h c
    unfold grossChargeOf
    rw [dedupByClaim_append_dup rs extra h]
  · simp +decide [cohortMatrix, applyFilter, matchesFilter, paymentMonthsOf,
      cohortsOf, sortStrs, insertStr, dedupByClaim, dedupByClaimAux,
      grossChargeOf, matrixRowOf, paymentsCell, totalsCell, contributes,
      clm001a, clm001b]

/-- Witness for C1: the second CLM001 payment row duplicates the claim id
of the first, and appending it leaves the 2024-01 cohort's gross charge
unchanged. -/
theorem gross_charge_counted_once_per_claim_witness :
    clm001b.claim_id ∈ [clm001a].map (·.claim_id) ∧
    grossChargeOf ([clm001a] ++ [clm001b]) "2024-01" =
      grossChargeOf [clm001a] "2024-01" :=
  ⟨by decide,
   gross_charge_counted_once_per_claim.1 [clm001a] clm001b (by decide) "2024-01"⟩

theorem lookup_map_graph (f : String → ℚ) (m : String) :
    ∀ l : List String,
      (l.map (fun x => (x, f x))).lookup m = if m ∈ l then some (f m) else none := by
  intro l
  induction l with
  | nil => simp
  | cons x l ih =>
      by_cases hmx : m = x
      · subst hmx
        simp [List.lookup]
      · simp only [List.map_cons, List.lookup, beq_false_of_ne hmx, ih,
          List.mem_cons, hmx, false_or]

theorem find?_eq_self (c : String) :
    ∀ l : List String, l.find? (fun x => x == c) = if c ∈ l then some c else none := by
  intro l
  induction l with
  | nil => simp
  | cons x l ih =>
      by_cases hxc : x = c
      · subst hxc
        simp
      · rw [List.find?_cons_of_neg _ (by simp [hxc]), ih]
        simp [Ne.symm hxc]

theorem find?_matrixRow (rs : List ClaimPayment) (months : List String)
    (l : List String) (c : String) :
    (l.map (matrixRowOf rs months)).find? (fun row => row.dos_month == c) =
      if c ∈ l then some (matrixRowOf rs months c) else none := by
  rw [List.find?_map]
  have hcomp : ((fun row : MatrixRow => row.dos_month == c) ∘ matrixRowOf rs months) =
      fun x => x == c := by
    funext x
    simp [matrixRowOf, Function.comp]
  rw [hcomp, find?_eq_self]
  split <;> simp

theorem paymentsCell_eq_zero {rs : List ClaimPayment} {c m : String}
    (h : ∀ r ∈ rs, ¬ contributes c m r = true) : paymentsCell rs c m = 0 := by
  unfold paymentsCell
  rw [List.filter_eq_nil_iff.mpr h]
  simp

theorem mem_cohortsOf_of_contrib {rs : List ClaimPayment} {c m : String}
    {r : ClaimPayment} (hr : r ∈ rs) (hc : contributes c m r = true) :
    c ∈ cohortsOf rs := by
  have hs : r.service_month = c := by
    have h2 := hc
    unfold contributes at h2
    rw [Bool.and_eq_true, beq_iff_eq, beq_iff_eq] at h2
    exact h2.1
  unfold cohortsOf
  rw [mem_sortStrs, List.mem_dedup]
  exact hs ▸ List.mem_map_of_mem (·.service_month) hr

theorem mem_paymentMonthsOf_of_contrib {rs : List ClaimPayment} {c m : String}
    {r : ClaimPayment} (hr : r ∈ rs) (hc : contributes c m r = true) :
    m ∈ paymentMonthsOf rs := by
  have hp : r.paid_month = m := by
    have h2 := hc
    unfold contributes at h2
    rw [Bool.and_eq_true, beq_iff_eq, beq_iff_eq] at h2
    exact h2.2
  unfold paymentMonthsOf
  rw [mem_sortStrs, List.mem_dedup]
  exact hp ▸ List.mem_map_of_mem (·.paid_month) hr

/-- Bridge: the (cohort, column) cell of the produced matrix, read with
the client's `|| 0` defaulting, is exactly the sum of `amount_paid` over
the filtered records contributing to that cell. -/
theorem matrixCellD_cohortMatrix (rs : List ClaimPayment)
    (payerF stypeF : Option String) (c m : String) :
    matrixCellD (cohortMatrix rs payerF stypeF) c m =
      paymentsCell (applyFilter payerF stypeF rs) c m := by
  unfold matrixCellD cohortMatrix
  rw [find?_matrixRow]
  by_cases hc : c ∈ cohortsOf (applyFilter payerF stypeF rs)
  · rw [if_pos hc]
    simp only [Option.map_some', Option.getD_some]
    unfold lookupD matrixRowOf
    rw [lookup_map_graph]
    by_cases hm : m ∈ (paymentMonthsOf (applyFilter payerF stypeF rs)).filter
        (fun m => (applyFilter payerF stypeF rs).any (contributes c m))
    · rw [if_pos hm]
      rfl
    · rw [if_neg hm]
      have hnone : ∀ r ∈ applyFilter payerF stypeF rs, ¬ contributes c m r = true := by
        intro r hr hcon
        exact hm (List.mem_filter.2
          ⟨mem_paymentMonthsOf_of_contrib hr hcon, List.any_eq_true.2 ⟨r, hr, hcon⟩⟩)
      rw [paymentsCell_eq_zero hnone]
      rfl
  · rw [if_neg hc]
    have hnone : ∀ r ∈ applyFilter payerF stypeF rs, ¬ contributes c m r = true :=
      fun r hr hcon => hc (mem_cohortsOf_of_contrib hr hcon)
    rw [paymentsCell_eq_zero hnone]
    simp

theorem applyFilter_none_none (rs : List ClaimPayment) :
    applyFilter none none rs = rs := by
  unfold applyFilter
  exact List.filter_eq_self.mpr (fun a _ => rfl)

theorem sum_filter_and_le (p q : ClaimPayment → Bool) :
    ∀ l : List ClaimPayment, (∀ r ∈ l, 0 ≤ r.amount_paid) →
      ((l.filter (fun r => q r && p r)).map (·.amount_paid)).sum ≤
        ((l.filter q).map (·.amount_paid)).sum := by
  intro l
  induction l with
  | nil => simp
  | cons r l ih =>
      intro h
      have h0 : 0 ≤ r.amount_paid := h r (List.mem_cons_self r l)
      have hl : ∀ x ∈ l, 0 ≤ x.amount_paid := fun x hx => h x (List.mem_cons_of_mem r hx)
      cases hq : q r
      · simp only [List.filter_cons, hq, Bool.and_false, Bool.false_and, cond_false]
        exact ih hl
      · cases hp : p r
        · simp only [List.filter_cons, hq, hp, Bool.and_false, cond_false, cond_true,
            List.map_cons, List.sum_cons]
          exact le_trans (ih hl) (le_add_of_nonneg_left h0)
        · simp only [List.filter_cons, hq, hp, Bool.and_true, cond_true,
            List.map_cons, List.sum_cons]
          exact add_le_add_left (ih hl) _

/-- A concrete claim row for payer P1: one 100.00 payment in 2024-02 for a
2024-01 service. -/
def rA : ClaimPayment :=
  { claim_id := "A", service_month := "2024-01", paid_month := "2024-02"
    billed_amount := 100, amount_paid := 100
    payer := "P1", service_type := "S" }

/-- A concrete claim row for payer P2: a negative payment (refund) of
50.00 in 2024-02 for a 2024-01 service — the spec explicitly allows
negative `amount_paid`. -/
def rB : ClaimPayment :=
  { claim_id := "B", service_month := "2024-01", paid_month := "2024-02"
    billed_amount := 100, amount_paid := -50
    payer := "P2", service_type := "S" }

/-- Counterexample to C3 as stated: with a negative payment present
(allowed by the spec's own signed-amount invariant), narrowing the record
set to payer P1 removes P2's refund and the filtered (2024-01, 2024-02)
cell, 100, exceeds the unfiltered cell, 50. -/
theorem filtered_cell_can_exceed_unfiltered :
    matrixCellD (cohortMatrix [rA, rB] (some "P1") none) "2024-01" "2024-02" = 100 ∧
    matrixCellD (cohortMatrix [rA, rB] none none) "2024-01" "2024-02" = 50 ∧
    ¬ matrixCellD (cohortMatrix [rA, rB] (some "P1") none) "2024-01" "2024-02" ≤
        matrixCellD (cohortMatrix [rA, rB] none none) "2024-01" "2024-02" := by
  have h1 : matrixCellD (cohortMatrix [rA, rB] (some "P1") none) "2024-01" "2024-02" = 100 := by
    rw [matrixCellD_cohortMatrix]
    simp +decide [applyFilter, matchesFilter, paymentsCell, contributes, rA, rB]
  have h2 : matrixCellD (cohortMatrix [rA, rB] none none) "2024-01" "2024-02" = 50 := by
    rw [matrixCellD_cohortMatrix]
    simp +decide [applyFilter, matchesFilter, paymentsCell, contributes, rA, rB]
    norm_num
  refine ⟨h1, h2, ?_⟩
  rw [h1, h2]
  norm_num

/-- C3 amended: when every `amount_paid` in the record set is nonnegative,
narrowing the record set by a payer/service_type filter can only lower
each (cohort, column) cell of the produced matrix (read with the client's
`|| 0` defaulting). The restriction to nonnegative payments is forced by
the counterexample: the spec itself allows negative refund rows, and
removing a refund by filtering raises the cell. -/
theorem filtered_cell_le_unfiltered_of_nonneg (rs : List ClaimPayment)
    (payerF stypeF : Option String) (c m : String)
    (h : ∀ r ∈ rs, 0 ≤ r.amount_paid) :
    matrixCellD (cohortMatrix rs payerF stypeF) c m ≤
      matrixCellD (cohortMatrix rs none none) c m := by
  rw [matrixCellD_cohortMatrix, matrixCellD_cohortMatrix, applyFilter_none_none]
  unfold paymentsCell applyFilter
  rw [List.filter_filter]
  exact sum_filter_and_le (matchesFilter payerF stypeF) (contributes c m) rs h

/-- Witness for the amended C3 at a concrete nonnegative record set:
filtering to payer P2 (no matching rows) yields a cell ≤ the unfiltered
cell. -/
theorem filtered_cell_le_unfiltered_of_nonneg_witness :
    matrixCellD (cohortMatrix [rA] (some "P2") none) "2024-01" "2024-02" ≤
      matrixCellD (cohortMatrix [rA] none none) "2024-01" "2024-02" :=
  filtered_cell_le_unfiltered_of_nonneg [rA] (some "P2") none "2024-01" "2024-02"
    (by
      intro r hr
      rw [List.mem_singleton] at hr
      subst hr
      norm_num [rA])

/-- The waterfall half of the sparseness property: a (cohort, column)
cell with no contributing record is absent from the row's payments map. -/
theorem waterfall_cell_absent (rs : List ClaimPayment)
    (payerF stypeF : Option String) (c m : String) (row : MatrixRow)
    (hrow : row ∈ (cohortMatrix rs payerF stypeF).matrix)
    (hnone : ∀ r ∈ applyFilter payerF stypeF rs, ¬ contributes c m r = true)
    (hdos : row.dos_month = c) :
    row.payments.lookup m = none ∧ ∀ v : ℚ, (m, v) ∉ row.payments := by
  obtain ⟨c', hc', hrw⟩ := List.mem_map.1 hrow
  have hcc : c' = c := by
    rw [← hdos, ← hrw]
    rfl
  subst hcc
  have hq : (applyFilter payerF stypeF rs).any (contributes c' m) = false := by
    by_contra hcon
    rw [Bool.not_eq_false, List.any_eq_true] at hcon
    obtain ⟨r, hr, hcr⟩ := hcon
    exact hnone r hr hcr
  have hmf : m ∉ (paymentMonthsOf (applyFilter payerF stypeF rs)).filter
      (fun x => (applyFilter payerF stypeF rs).any (contributes c' x)) := by
    intro hmem
    have := (List.mem_filter.1 hmem).2
    rw [hq] at this
    exact Bool.false_ne_true this
  constructor
  · rw [← hrw]
    unfold matrixRowOf
    rw [lookup_map_graph, if_neg hmf]
  · intro v hv
    rw [← hrw] at hv
    unfold matrixRowOf at hv
    obtain ⟨x, hx, hxe⟩ := List.mem_map.1 hv
    have hxm : x = m := congrArg Prod.fst hxe
    exact hmf (hxm ▸ hx)

/-- The one row that aggregating `[rA]` unfiltered produces. -/
def exRow : MatrixRow :=
  { dos_month := "2024-01", gross_charge := 100, payments := [("2024-02", 100)] }

/-- An event of the waterfall client's recompute path (`fetchMatrix` in
the App component): a fetch is started for some filter, and later its
response arrives; interleavings of several in-flight fetches are traces
of these events. -/
inductive FetchEvent where
  | start : FetchEvent
  | arrive (payerF stypeF : Option String) : FetchEvent

/-- The client state touched by `fetchMatrix`: `matrixData`, `isLoading`,
`error` (React `useState` cells in the App component). -/
structure WaterfallState where
  matrixData : Option CohortMatrixData
  isLoading : Bool
  error : Option String

/-- One step of `fetchMatrix` (App component, lines 98–143): starting a
fetch sets `isLoading`; a successful response unconditionally calls
`setMatrixData(data)` — there is no sequence-number or staleness check —
and the `finally` clears `isLoading`. The response to a
(payer, service_type) request over the retained raw rows is the
aggregation of those rows under that filter. -/
def fetchStep (raw : List ClaimPayment) (s : WaterfallState) :
    FetchEvent → WaterfallState
  | .start => { s with isLoading := true }
  | .arrive payerF stypeF =>
      { s with matrixData := some (cohortMatrix raw payerF stypeF)
               isLoading := false }

/-- Run a trace of fetch events from a client state. -/
def runFetches (raw : List ClaimPayment) (s : WaterfallState) :
    List FetchEvent → WaterfallState
  | [] => s
  | e :: rest => runFetches raw (fetchStep raw s e) rest

/-- The filter of the last-arriving response in a trace, if any arrives. -/
def lastArrival : List FetchEvent → Option (Option String × Option String)
  | [] => none
  | .start :: rest => lastArrival rest
  | .arrive p t :: rest =>
      match lastArrival rest with
      | none => some (p, t)
      | some y => some y

theorem runFetches_matrixData (raw : List ClaimPayment) :
    ∀ (events : List FetchEvent) (s : WaterfallState),
      (runFetches raw s events).matrixData =
        match lastArrival events with
        | none => s.matrixData
        | some (p, t) => some (cohortMatrix raw p t) := by
  intro events
  induction events with
  | nil => intro s; rfl
  | cons e rest ih =>
      intro s
      cases e with
      | start =>
          rw [runFetches, ih]
          rfl
      | arrive p t =>
          rw [runFetches, ih]
          cases h : lastArrival rest with
          | none => simp [lastArrival, fetchStep, h]
          | some y => simp [lastArrival, fetchStep, h]

/-- Trace state before any upload, as initialized in the App component. -/
def s0 : WaterfallState := { matrixData := none, isLoading := false, error := none }

/-- Counterexample to C2 as stated: the user selects payer P1 then payer
P2; P2's recompute response arrives first and the stale P1 response
arrives last. `fetchMatrix` applies every response unconditionally, so the
final `matrixData` is P1's matrix — the most recently *arrived* response —
even though P2 was the most recently issued filter and the two matrices
differ. -/
theorem stale_response_overwrites_newer :
    (runFetches [rA] s0
        [.start, .start, .arrive (some "P2") none, .arrive (some "P1") none]).matrixData
      = some (cohortMatrix [rA] (some "P1") none) ∧
    cohortMatrix [rA] (some "P1") none ≠ cohortMatrix [rA] (some "P2") none := by
  constructor
  · rfl
  · intro h
    have h2 := congrArg (fun d => d.payment_months) h
    simp +decide [cohortMatrix, applyFilter, matchesFilter, paymentMonthsOf,
      sortStrs, insertStr, rA] at h2

/-- C2 amended: the matrix state finally shown corresponds to the most
recently *arrived* response, not the most recently issued filter — every
arriving response (stale or not) overwrites `matrixData`. -/
theorem matrix_shows_last_arrived_response (raw : List ClaimPayment)
    (s : WaterfallState) (events : List FetchEvent) (p t : Option String)
    (h : lastArrival events = some (p, t)) :
    (runFetches raw s events).matrixData = some (cohortMatrix raw p t) := by
  rw [runFetches_matrixData raw events s, h]

/-- Witness for the amended C2 on a concrete one-fetch trace. -/
theorem matrix_shows_last_arrived_response_witness :
    (runFetches [rA] s0 [.start, .arrive (some "P2") none]).matrixData
      = some (cohortMatrix [rA] (some "P2") none) :=
  matrix_shows_last_arrived_response [rA] s0 [.start, .arrive (some "P2") none]
    (some "P2") none rfl

/-- Modelled from the spec: §3 — an Order input record
`{customer_id, order_date, order_amount}`, with `order_date` kept at the
calendar-month precision (a month index) at which the engine uses it:
cohort assignment and period bucketing only ever read the month, and the
month of the earliest date equals the minimum of the months. -/
structure Order where
  customer_id : String
  order_month : Nat
  order_amount : ℚ
  deriving DecidableEq, Repr

/-- The orders belonging to one customer, in input order. -/
def ordersOf (rs : List Order) (cust : String) : List Order :=
  rs.filter (fun r => r.customer_id == cust)

/-- Modelled from the spec: §4.2 (retention) — a customer's cohort is the
calendar month of their earliest order; `none` for a customer with no
orders. -/
def cohortOfCustomer (rs : List Order) (cust : String) : Option Nat :=
  match (ordersOf rs cust).map (·.order_month) with
  | [] => none
  | m :: ms => some (ms.foldl Nat.min m)

/-- The distinct customers of the record set. -/
def customersOf (rs : List Order) : List String :=
  (rs.map (·.customer_id)).dedup

/-- Modelled from the spec: §4.3, §4.4 — is the customer in cohort `c` and
active in column `k`, i.e. does some of their orders fall at month offset
`k` from the cohort month?  Nat subtraction clamps negative offsets to 0,
the defensive clamping §4.3 requires. -/
def customerActive (rs : List Order) (cust : String) (c k : Nat) : Bool :=
  cohortOfCustomer rs cust == some c &&
    (ordersOf rs cust).any (fun r => r.order_month - c == k)

/-- Modelled from the spec: §4.4 — `customer_count[c][k]`: the number of
distinct customers of cohort `c` active in column `k`. -/
def customerCount (rs : List Order) (c k : Nat) : Nat :=
  ((customersOf rs).filter (fun cust => customerActive rs cust c k)).length

/-- Modelled from the spec: §3, §4.4 — `retention%[c][k]`, the count of
distinct customers active in column `k` divided by the distinct customers
in column 0; undefined (`none`), not a division by zero, when the month-0
baseline is 0. -/
def retentionPct (rs : List Order) (c k : Nat) : Option ℚ :=
  if customerCount rs c 0 = 0 then none
  else some (100 * (customerCount rs c k : ℚ) / (customerCount rs c 0 : ℚ))

/-- Modelled from the spec: §4.4 — `revenue[c][k]`: sum of `order_amount`
over orders of cohort-`c` customers at offset `k`. -/
def revenueCell (rs : List Order) (c k : Nat) : ℚ :=
  ((rs.filter (fun r =>
      cohortOfCustomer rs r.customer_id == some c && r.order_month - c == k)).map
    (·.order_amount)).sum

/-- Modelled from the spec: §3, §4.4 — `revenue_retention%[c][k]` with the
cohort's month-0 revenue as baseline; undefined when the baseline is 0. -/
def revenueRetentionPct (rs : List Order) (c k : Nat) : Option ℚ :=
  if revenueCell rs c 0 = 0 then none
  else some (100 * revenueCell rs c k / revenueCell rs c 0)

/-- Insert into a `≤`-sorted list of month indices / offsets. -/
def insertNat (a : Nat) : List Nat → List Nat
  | [] => [a]
  | b :: l => if b < a then b :: insertNat a l else a :: b :: l

/-- Sort month indices / offsets ascending (insertion sort). -/
def sortNats : List Nat → List Nat
  | [] => []
  | a :: l => insertNat a (sortNats l)

/-- Modelled from the spec: §3 — the cohorts of a retention record set:
distinct customer cohort months, sorted. -/
def cohortsRet (rs : List Order) : List Nat :=
  sortNats ((customersOf rs).filterMap (cohortOfCustomer rs)).dedup

/-- Modelled from the spec: §3 — columns are derived, not stored: for
cohort `c`, the distinct offsets at which any of its orders landed. -/
def offsetsOf (rs : List Order) (c : Nat) : List Nat :=
  sortNats ((rs.filterMap (fun r =>
    if cohortOfCustomer rs r.customer_id == some c then some (r.order_month - c)
    else none)).dedup)

/-- Modelled from the spec: §4.4, §6 — `customer_table`. -/
def customerTable (rs : List Order) : List (Nat × List (Nat × Nat)) :=
  (cohortsRet rs).map (fun c =>
    (c, (offsetsOf rs c).map (fun k => (k, customerCount rs c k))))

/-- Modelled from the spec: §4.4, §6 — `retention_table` (cells with an
undefined percentage are omitted, keeping the matrix sparse). -/
def retentionTable (rs : List Order) : List (Nat × List (Nat × ℚ)) :=
  (cohortsRet rs).map (fun c =>
    (c, (offsetsOf rs c).filterMap (fun k =>
      (retentionPct rs c k).map (fun v => (k, v)))))

/-- Modelled from the spec: §4.4, §6 — `revenue_table`. -/
def revenueTable (rs : List Order) : List (Nat × List (Nat × ℚ)) :=
  (cohortsRet rs).map (fun c =>
    (c, (offsetsOf rs c).map (fun k => (k, revenueCell rs c k))))

/-- Modelled from the spec: §4.4, §6 — `revenue_retention_table`. -/
def revenueRetentionTable (rs : List Order) : List (Nat × List (Nat × ℚ)) :=
  (cohortsRet rs).map (fun c =>
    (c, (offsetsOf rs c).filterMap (fun k =>
      (revenueRetentionPct rs c k).map (fun v => (k, v)))))

/-- The `summary` block of `RetentionAnalysisResponse`
(`frontend/src/types.ts`). -/
structure RetentionSummary where
  total_orders : Nat
  unique_customers : Nat
  total_revenue : ℚ
  deriving DecidableEq, Repr

/-- Modelled from the spec: §4.5 — summary counts. -/
def summaryOf (rs : List Order) : RetentionSummary :=
  { total_orders := rs.length
    unique_customers := (customersOf rs).length
    total_revenue := (rs.map (·.order_amount)).sum }

/-- Modelled from the spec: §6 — `cohort_sizes`: new customers per cohort
(the cohort's month-0 distinct-customer count). -/
def cohortSizes (rs : List Order) : List (Nat × Nat) :=
  (cohortsRet rs).map (fun c => (c, customerCount rs c 0))

/-- All offsets appearing in any cohort, sorted. -/
def allOffsets (rs : List Order) : List Nat :=
  sortNats ((cohortsRet rs).map (offsetsOf rs)).flatten.dedup

/-- Modelled from the spec: §6 — one point of the cross-cohort retention
curve, as the pooled ratio of active customers at offset `k` over all
month-0 customers (the spec fixes only that the curve aggregates across
cohorts; only its empty-input behavior is relied on here). -/
def retentionCurvePoint (rs : List Order) (k : Nat) : ℚ :=
  if ((cohortsRet rs).map (fun c => customerCount rs c 0)).sum = 0 then 0
  else
    100 * (((cohortsRet rs).map (fun c => customerCount rs c k)).sum : ℚ) /
      ((((cohortsRet rs).map (fun c => customerCount rs c 0)).sum : ℕ) : ℚ)

/-- Modelled from the spec: §6 — `retention_curve`. -/
def retentionCurve (rs : List Order) : List (Nat × ℚ) :=
  (allOffsets rs).map (fun k => (k, retentionCurvePoint rs k))

/-- The retention response shape from `frontend/src/types.ts`, with table
maps as association lists keyed by month index / offset. -/
structure RetentionAnalysisResponse where
  success : Bool
  error : Option String
  summary : RetentionSummary
  retention_table : List (Nat × List (Nat × ℚ))
  revenue_table : List (Nat × List (Nat × ℚ))
  customer_table : List (Nat × List (Nat × Nat))
  revenue_retention_table : List (Nat × List (Nat × ℚ))
  cohort_sizes : List (Nat × Nat)
  retention_curve : List (Nat × ℚ)
  deriving DecidableEq, Repr

/-- Modelled from the spec: §4.4, §6, §7 — the aggregation behind
`POST analyze`: a pure pipeline over the normalized records; empty input
is a non-fatal "no data" success, never an exception. -/
def analyze (rs : List Order) : RetentionAnalysisResponse :=
  { success := true
    error := none
    summary := summaryOf rs
    retention_table := retentionTable rs
    revenue_table := revenueTable rs
    customer_table := customerTable rs
    revenue_retention_table := revenueRetentionTable rs
    cohort_sizes := cohortSizes rs
    retention_curve := retentionCurve rs }

/-- C4: every non-empty cohort's month-0 retention cell is exactly 100%. -/
theorem retention_month0_is_full (rs : List Order) (c : Nat)
    (h : 0 < customerCount rs c 0) : retentionPct rs c 0 = some 100 := by
  unfold retentionPct
  rw [if_neg (Nat.pos_iff_ne_zero.1 h)]
  congr 1
  rw [mul_div_assoc, div_self, mul_one]
  exact Nat.cast_ne_zero.2 (Nat.pos_iff_ne_zero.1 h)

/-- The month index of calendar month 2024-01 (year × 12 + month − 1). -/
def month202401 : Nat := 2024 * 12

/-- The month index of calendar month 2024-02. -/
def month202402 : Nat := 2024 * 12 + 1

/-- The retention sample rows from `LandingPage.tsx`: C001 orders in
2024-01 and 2024-02, C002 orders once in 2024-01. -/
def ex5 : List Order :=
  [{ customer_id := "C001", order_month := month202401, order_amount := 9999 / 100 },
   { customer_id := "C002", order_month := month202401, order_amount := 14950 / 100 },
   { customer_id := "C001", order_month := month202402, order_amount := 7999 / 100 }]

/-- Witness for C4 at the concrete sample records: cohort 2024-01 is
non-empty and its month-0 retention is 100%. -/
theorem retention_month0_is_full_witness :
    0 < customerCount ex5 month202401 0 ∧
    retentionPct ex5 month202401 0 = some 100 :=
  ⟨by decide, retention_month0_is_full ex5 month202401 (by decide)⟩

/-- C5: on the spec's retention example — C001 with orders in 2024-01 and
2024-02, C002 with one order in 2024-01 — cohort 2024-01 has
customer_count {0: 2, 1: 1} and retention% {0: 100, 1: 50}: the
percentage counts distinct active customers, not total orders. -/
theorem retention_example_cohort_2024_01 :
    customerCount ex5 month202401 0 = 2 ∧
    customerCount ex5 month202401 1 = 1 ∧
    retentionPct ex5 month202401 0 = some 100 ∧
    retentionPct ex5 month202401 1 = some 50 := by
  have h0 : customerCount ex5 month202401 0 = 2 := by decide
  have h1 : customerCount ex5 month202401 1 = 1 := by decide
  refine ⟨h0, h1, ?_, ?_⟩
  · rw [retentionPct, h0]
    norm_num
  · rw [retentionPct, h0, h1]
    norm_num

/-- C6: aggregating the empty record set raises no error in either mode:
the retention pipeline returns success with empty tables and zero summary
counts, and the waterfall pipeline returns an empty matrix with zero
cohorts and zero payment columns. -/
theorem empty_input_returns_empty_success :
    analyze [] =
      { success := true
        error := none
        summary := { total_orders := 0, unique_customers := 0, total_revenue := 0 }
        retention_table := []
        revenue_table := []
        customer_table := []
        revenue_retention_table := []
        cohort_sizes := []
        retention_curve := [] } ∧
    cohortMatrix [] none none =
      { matrix := [], payment_months := []
        totals := { gross_charge := 0, payments := [] } } := by
  constructor
  · rfl
  · rfl

/-- Does order `r` contribute to the retention-mode cell (cohort `c`,
offset `k`): its owner's cohort is `c` and it lands at offset `k`? -/
def contributesRet (rs : List Order) (c k : Nat) (r : Order) : Bool :=
  cohortOfCustomer rs r.customer_id == some c && r.order_month - c == k

theorem mem_insertNat {x a : Nat} {l : List Nat} :
    x ∈ insertNat a l ↔ x = a ∨ x ∈ l := by
  induction l with
  | nil => simp [insertNat]
  | cons b l ih =>
      rw [insertNat]
      split
      · rw [List.mem_cons, ih, List.mem_cons]
        tauto
      · simp only [List.mem_cons]

theorem mem_sortNats {x : Nat} {l : List Nat} :
    x ∈ sortNats l ↔ x ∈ l := by
  induction l with
  | nil => simp [sortNats]
  | cons a l ih => simp [sortNats, mem_insertNat, ih]

/-- An offset key is present in a cohort's column set exactly when some
record contributes to that (cohort, offset) cell. -/
theorem mem_offsetsOf {rs : List Order} {c k : Nat} :
    k ∈ offsetsOf rs c ↔ ∃ r ∈ rs, contributesRet rs c k r = true := by
  unfold offsetsOf
  rw [mem_sortNats, List.mem_dedup, List.mem_filterMap]
  constructor
  · rintro ⟨r, hr, hg⟩
    by_cases hc : (cohortOfCustomer rs r.customer_id == some c) = true
    · rw [if_pos hc] at hg
      refine ⟨r, hr, ?_⟩
      unfold contributesRet
      rw [Bool.and_eq_true]
      exact ⟨hc, beq_iff_eq.2 (Option.some.inj hg)⟩
    · rw [if_neg hc] at hg
      exact absurd hg (by simp)
  · rintro ⟨r, hr, hcr⟩
    unfold contributesRet at hcr
    rw [Bool.and_eq_true] at hcr
    exact ⟨r, hr, by rw [if_pos hcr.1]; exact congrArg some (beq_iff_eq.1 hcr.2)⟩

theorem lookup_eq_none_of_keys {β : Type} (k : Nat) :
    ∀ l : List (Nat × β), (∀ p ∈ l, p.1 ≠ k) → l.lookup k = none := by
  intro l
  induction l with
  | nil => intro h; rfl
  | cons p t ih =>
      intro h
      obtain ⟨a, b⟩ := p
      have ha : a ≠ k := h (a, b) (List.mem_cons_self _ _)
      simp only [List.lookup, beq_false_of_ne (Ne.symm ha)]
      exact ih (fun q hq => h q (List.mem_cons_of_mem _ hq))

theorem key_mem_of_mem_map_graph {β : Type} (f : Nat → β) (offsets : List Nat)
    (p : Nat × β) (hp : p ∈ offsets.map (fun x => (x, f x))) : p.1 ∈ offsets := by
  obtain ⟨x, hx, he⟩ := List.mem_map.1 hp
  rw [← he]
  exact hx

theorem key_mem_of_mem_filterMap_graph {β : Type} (h : Nat → Option β)
    (offsets : List Nat) (p : Nat × β)
    (hp : p ∈ offsets.filterMap (fun x => (h x).map (fun v => (x, v)))) :
    p.1 ∈ offsets := by
  obtain ⟨x, hx, he⟩ := List.mem_filterMap.1 hp
  obtain ⟨v, hv, he2⟩ := Option.map_eq_some'.1 he
  rw [← he2]
  exact hx

theorem absent_of_map_graph {β : Type} (f : Nat → β) (offsets : List Nat)
    (k : Nat) (hk : k ∉ offsets) :
    (offsets.map (fun x => (x, f x))).lookup k = none ∧
      ∀ v : β, (k, v) ∉ offsets.map (fun x => (x, f x)) := by
  constructor
  · exact lookup_eq_none_of_keys k _
      (fun p hp hpk => hk (hpk ▸ key_mem_of_mem_map_graph f offsets p hp))
  · intro v hv
    exact hk (key_mem_of_mem_map_graph f offsets (k, v) hv)

theorem absent_of_filterMap_graph {β : Type} (h : Nat → Option β)
    (offsets : List Nat) (k : Nat) (hk : k ∉ offsets) :
    (offsets.filterMap (fun x => (h x).map (fun v => (x, v)))).lookup k = none ∧
      ∀ v : β, (k, v) ∉ offsets.filterMap (fun x => (h x).map (fun v => (x, v))) := by
  constructor
  · exact lookup_eq_none_of_keys k _
      (fun p hp hpk => hk (hpk ▸ key_mem_of_mem_filterMap_graph h offsets p hp))
  · intro v hv
    exact hk (key_mem_of_mem_filterMap_graph h offsets (k, v) hv)

/-- A row-shaped table built per cohort inherits cell absence from its
cells builder: whatever holds of the cohort's cell list holds of the row
found for that cohort. -/
theorem table_row_absent {β : Type} (cells : Nat → List (Nat × β))
    (cs : List Nat) (c k : Nat)
    (habs : (cells c).lookup k = none ∧ ∀ v : β, (k, v) ∉ cells c) :
    ∀ row ∈ cs.map (fun c0 => (c0, cells c0)), row.1 = c →
      row.2.lookup k = none ∧ ∀ v : β, (k, v) ∉ row.2 := by
  intro row hrow h1
  obtain ⟨c', hc', he⟩ := List.mem_map.1 hrow
  have hcc : c' = c := by
    rw [← h1, ← he]
  rw [← he, hcc]
  exact habs

/-- C7: every output matrix is sparse — a (cohort, column) cell to which
no record contributed is absent (lookup `none`, no pair with that key, in
particular none with value 0): in the waterfall matrix's payments maps,
and in all four retention-mode tables (customer count, retention %,
revenue, revenue-retention %), so "no data yet" stays distinguishable
from a zero-valued aggregate everywhere. -/
theorem no_contribution_cell_absent :
    (∀ (rs : List ClaimPayment) (payerF stypeF : Option String) (c m : String)
        (row : MatrixRow),
        row ∈ (cohortMatrix rs payerF stypeF).matrix →
        (∀ r ∈ applyFilter payerF stypeF rs, ¬ contributes c m r = true) →
        row.dos_month = c →
        row.payments.lookup m = none ∧ ∀ v : ℚ, (m, v) ∉ row.payments) ∧
    (∀ (rs : List Order) (c k : Nat),
        (∀ r ∈ rs, ¬ contributesRet rs c k r = true) →
        (∀ row ∈ customerTable rs, row.1 = c →
            row.2.lookup k = none ∧ ∀ v : ℕ, (k, v) ∉ row.2) ∧
        (∀ row ∈ retentionTable rs, row.1 = c →
            row.2.lookup k = none ∧ ∀ v : ℚ, (k, v) ∉ row.2) ∧
        (∀ row ∈ revenueTable rs, row.1 = c →
            row.2.lookup k = none ∧ ∀ v : ℚ, (k, v) ∉ row.2) ∧
        (∀ row ∈ revenueRetentionTable rs, row.1 = c →
            row.2.lookup k = none ∧ ∀ v : ℚ, (k, v) ∉ row.2)) := by
  constructor
  · exact waterfall_cell_absent
  · intro rs c k hno
    have hk : k ∉ offsetsOf rs c := by
      intro hmem
      obtain ⟨r, hr, hcr⟩ := mem_offsetsOf.1 hmem
      exact hno r hr hcr
    refine ⟨?_, ?_, ?_, ?_⟩
    · exact table_row_absent
        (fun c0 => (offsetsOf rs c0).map (fun x => (x, customerCount rs c0 x)))
        (cohortsRet rs) c k
        (absent_of_map_graph (fun x => customerCount rs c x) (offsetsOf rs c) k hk)
    · exact table_row_absent
        (fun c0 => (offsetsOf rs c0).filterMap
          (fun x => (retentionPct rs c0 x).map (fun v => (x, v))))
        (cohortsRet rs) c k
        (absent_of_filterMap_graph (fun x => retentionPct rs c x) (offsetsOf rs c) k hk)
    · exact table_row_absent
        (fun c0 => (offsetsOf rs c0).map (fun x => (x, revenueCell rs c0 x)))
        (cohortsRet rs) c k
        (absent_of_map_graph (fun x => revenueCell rs c x) (offsetsOf rs c) k hk)
    · exact table_row_absent
        (fun c0 => (offsetsOf rs c0).filterMap
          (fun x => (revenueRetentionPct rs c0 x).map (fun v => (x, v))))
        (cohortsRet rs) c k
        (absent_of_filterMap_graph (fun x => revenueRetentionPct rs c x)
          (offsetsOf rs c) k hk)

/-- The row that `customerTable` produces for cohort 2024-01 of the
retention sample rows: active offsets 0 and 1 only. -/
def exCustRow : Nat × List (Nat × Nat) := (month202401, [(0, 2), (1, 1)])

/-- Witness for C7 in both modes: aggregating `[rA]` produces the
waterfall row `exRow`, whose (2024-01, 2024-03) cell — no contributing
record — is absent, not zero; and the customer table of the retention
sample has row `exCustRow` for cohort 2024-01, whose offset-2 cell — no
contributing order — is absent, not zero. -/
theorem no_contribution_cell_absent_witness :
    (exRow.payments.lookup "2024-03" = none ∧
      ∀ v : ℚ, ("2024-03", v) ∉ exRow.payments) ∧
    (exCustRow.2.lookup 2 = none ∧ ∀ v : ℕ, (2, v) ∉ exCustRow.2) := by
  constructor
  · exact no_contribution_cell_absent.1 [rA] none none "2024-01" "2024-03" exRow
      (by
        simp +decide [cohortMatrix, applyFilter, matchesFilter, paymentMonthsOf,
          cohortsOf, sortStrs, insertStr, dedupByClaim, dedupByClaimAux,
          grossChargeOf, matrixRowOf, paymentsCell, totalsCell, contributes,
          rA, exRow])
      (by decide) rfl
  · exact (no_contribution_cell_absent.2 ex5 month202401 2 (by decide)).1
      exCustRow (by decide) rfl

/-- JavaScript `Math.round`: round half toward positive infinity. -/
def jsRound (x : ℚ) : ℤ := ⌊x + 1 / 2⌋

/-- Insert a thousands separator after every three digits, on the
digit list taken in reverse (least-significant first). -/
def insertCommas : List Char → List Char
  | a :: b :: c :: d :: rest => a :: b :: c :: ',' :: insertCommas (d :: rest)
  | l => l

/-- `Number.prototype.toLocaleString()` on a natural number in the en-US
default locale: decimal digits grouped in threes by commas. -/
def groupDigits (n : Nat) : String :=
  String.mk (insertCommas (toString n).data.reverse).reverse

/-- `toLocaleString` on an integer. -/
def intLocaleString (i : ℤ) : String :=
  if i < 0 then "-" ++ groupDigits i.natAbs else groupDigits i.natAbs

/-- `formatCurrency` from `Charts.tsx` (PayerMatrix) and
`CohortHeatmap.tsx`: magnitudes below 0.5 render as the empty string,
negative values as the parenthesized absolute value of the rounded
amount, others as the rounded amount. -/
def formatCurrency (value : ℚ) : String :=
  if |value| < 1 / 2 then ""
  else if value < 0 then "(" ++ groupDigits (jsRound value).natAbs ++ ")"
  else intLocaleString (jsRound value)

/-- JavaScript `toFixed(1)` on the nonnegative rationals it is applied to
in `formatPercent`: one decimal digit, ties rounded up. -/
def jsToFixed1 (x : ℚ) : String :=
  toString ((⌊10 * x + 1 / 2⌋).toNat / 10) ++ "." ++
    toString ((⌊10 * x + 1 / 2⌋).toNat % 10)

/-- `formatPercent` from `Charts.tsx` (PayerMatrix): empty when the gross
charge is 0 or the payment is below 0.5 in magnitude; otherwise the
percentage `payment / grossCharge * 100` to one decimal, negatives
parenthesized on their absolute value. -/
def formatPercent (payment grossCharge : ℚ) : String :=
  if grossCharge = 0 ∨ |payment| < 1 / 2 then ""
  else if payment / grossCharge * 100 < 0 then
    "(" ++ jsToFixed1 |payment / grossCharge * 100| ++ "%)"
  else jsToFixed1 (payment / grossCharge * 100) ++ "%"

/-- C8: a derived percentage cell is undefined/absent — never the result
of dividing by zero — whenever its baseline is 0: the waterfall percent
formatter returns the empty string when the row's gross charge is 0, and
the retention and revenue-retention percentage cells are `none` when the
cohort's month-0 baseline is 0. -/
theorem baseline_zero_yields_undefined :
    (∀ payment : ℚ, formatPercent payment 0 = "") ∧
    (∀ (rs : List Order) (c k : Nat),
        customerCount rs c 0 = 0 → retentionPct rs c k = none) ∧
    (∀ (rs : List Order) (c k : Nat),
        revenueCell rs c 0 = 0 → revenueRetentionPct rs c k = none) := by
  refine ⟨fun payment => ?_, fun rs c k h => ?_, fun rs c k h => ?_⟩
  · unfold formatPercent
    rw [if_pos (Or.inl rfl)]
  · unfold retentionPct
    rw [if_pos h]
  · unfold revenueRetentionPct
    rw [if_pos h]

/-- Witness for C8 at concrete inputs with zero baselines. -/
theorem baseline_zero_yields_undefined_witness :
    formatPercent 7 0 = "" ∧ retentionPct [] 0 0 = none ∧
    revenueRetentionPct [] 0 0 = none :=
  ⟨baseline_zero_yields_undefined.1 7,
   baseline_zero_yields_undefined.2.1 [] 0 0 rfl,
   baseline_zero_yields_undefined.2.2 [] 0 0 rfl⟩

/-- C9: the display conventions the engine's consumers rely on — the
currency formatter renders the empty string below 0.5 in magnitude and a
parenthesized absolute (rounded) value for negatives; the percent
formatter renders negatives with the identical parenthesized-absolute
convention and always with exactly one decimal digit. -/
theorem formatter_conventions :
    (∀ v : ℚ, |v| < 1 / 2 → formatCurrency v = "") ∧
    (∀ v : ℚ, v < 0 → 1 / 2 ≤ |v| →
        formatCurrency v = "(" ++ groupDigits (jsRound v).natAbs ++ ")") ∧
    (∀ p g : ℚ, g ≠ 0 → 1 / 2 ≤ |p| → p / g * 100 < 0 →
        formatPercent p g = "(" ++ jsToFixed1 |p / g * 100| ++ "%)") ∧
    (∀ p g : ℚ, g ≠ 0 → 1 / 2 ≤ |p| → 0 ≤ p / g * 100 →
        formatPercent p g = jsToFixed1 (p / g * 100) ++ "%") ∧
    (∀ x : ℚ, ∃ a b : ℕ, b < 10 ∧ jsToFixed1 x = toString a ++ "." ++ toString b) := by
  refine ⟨fun v h => ?_, fun v hneg hge => ?_, fun p g hg hp hpct => ?_,
    fun p g hg hp hpct => ?_, fun x => ?_⟩
  · unfold formatCurrency
    rw [if_pos h]
  · unfold formatCurrency
    rw [if_neg (not_lt.2 hge), if_pos hneg]
  · unfold formatPercent
    rw [if_neg (by push_neg; exact ⟨hg, hp⟩), if_pos hpct]
  · unfold formatPercent
    rw [if_neg (by push_neg; exact ⟨hg, hp⟩), if_neg (not_lt.2 hpct)]
  · exact ⟨(⌊10 * x + 1 / 2⌋).toNat / 10, (⌊10 * x + 1 / 2⌋).toNat % 10,
      Nat.mod_lt _ (by norm_num), rfl⟩

/-- Witness for C9: the conventions applied at concrete inputs — 0.25
renders empty, −3 dollars renders "(3)", a −600% cell renders "(600.0%)",
and the one-decimal shape at 3.14. -/
theorem formatter_conventions_witness :
    formatCurrency (1 / 4 : ℚ) = "" ∧
    formatCurrency (-3 : ℚ) = "(3)" ∧
    formatPercent (-600 : ℚ) 100 = "(600.0%)" ∧
    (∃ a b : ℕ, b < 10 ∧
      jsToFixed1 (314 / 100 : ℚ) = toString a ++ "." ++ toString b) := by
  refine ⟨?_, ?_, ?_, formatter_conventions.2.2.2.2 (314 / 100)⟩
  · exact formatter_conventions.1 (1 / 4)
      (by rw [abs_of_nonneg (by norm_num)]; norm_num)
  · rw [formatter_conventions.2.1 (-3) (by norm_num)
      (by rw [abs_of_neg (by norm_num)]; norm_num)]
    have hr : jsRound (-3 : ℚ) = -3 := by
      unfold jsRound
      norm_num
    rw [hr]
    decide
  · rw [formatter_conventions.2.2.1 (-600) 100 (by norm_num)
      (by rw [abs_of_neg (by norm_num)]; norm_num) (by norm_num)]
    have habs : |(-600 : ℚ) / 100 * 100| = 600 := by
      rw [show ((-600 : ℚ) / 100 * 100) = -600 by norm_num,
        abs_of_neg (by norm_num : (-600 : ℚ) < 0)]
      norm_num
    rw [habs]
    have hfl : ⌊(10 : ℚ) * 600 + 1 / 2⌋ = 6000 := by norm_num
    unfold jsToFixed1
    rw [hfl]
    decide

/-- The part of the parsed `/analyze` body that `handleFileSelect` in
`frontend/src/App.tsx` inspects: `success` and the optional `error`
message. -/
structure AnalyzeResult where
  success : Bool
  error : Option String
  deriving DecidableEq, Repr

/-- An `/analyze` HTTP response whose body parsed: its HTTP status
(`ok`) and the parsed body.  `handleFileSelect` never reads `ok`. -/
structure AnalyzeResponse where
  ok : Bool
  body : AnalyzeResult
  deriving DecidableEq, Repr

/-- How one `/analyze` invocation can end: the fetch or the body parse
throws (with the thrown error's message), or a body is obtained. -/
inductive AnalyzeOutcome where
  | throws (msg : String)
  | responded (r : AnalyzeResponse)

/-- The client state touched by `handleFileSelect` in
`frontend/src/App.tsx` (React `useState` cells). -/
structure AnalyzeAppState where
  data : Option AnalyzeResult
  isLoading : Bool
  error : Option String
  uploadedFile : Option String
  deriving DecidableEq, Repr

/-- `result.error || 'Analysis failed'`: JavaScript `||` treats the empty
string as falsy. -/
def failMsg : Option String → String
  | none => "Analysis failed"
  | some s => if s = "" then "Analysis failed" else s

/-- `handleFileSelect` from `frontend/src/App.tsx` (lines 30–58): set
loading, clear the error, remember the file; on a parsed body check only
`result.success` (the HTTP status is never consulted); on
`success = false` or a throw, the catch block sets the error message and
nulls both `data` and `uploadedFile`; `finally` clears loading. -/
def handleFileSelect (s : AnalyzeAppState) (file : String) :
    AnalyzeOutcome → AnalyzeAppState
  | .throws msg =>
      { data := none, isLoading := false, error := some msg, uploadedFile := none }
  | .responded r =>
      if r.body.success then
        { data := some r.body, isLoading := false, error := none,
          uploadedFile := some file }
      else
        { data := none, isLoading := false, error := some (failMsg r.body.error),
          uploadedFile := none }

/-- An unsuccessful HTTP response whose JSON body nevertheless carries
`success = true`. -/
def badResp : AnalyzeResponse := { ok := false, body := { success := true, error := none } }

/-- Counterexample to C10 as stated: `handleFileSelect` never checks
`response.ok`, so an invocation whose HTTP response is unsuccessful but
whose body parses with `success = true` ends with the dashboard data and
the uploaded file set and no error — not with the nulled-out state the
claim requires for every failing invocation. -/
theorem http_failure_with_success_body_not_cleared :
    badResp.ok = false ∧
    (handleFileSelect ⟨none, false, none, none⟩ "orders.csv"
        (.responded badResp)).data = some badResp.body ∧
    (handleFileSelect ⟨none, false, none, none⟩ "orders.csv"
        (.responded badResp)).uploadedFile = some "orders.csv" ∧
    (handleFileSelect ⟨none, false, none, none⟩ "orders.csv"
        (.responded badResp)).error = none :=
  ⟨rfl, rfl, rfl, rfl⟩

/-- The failure cases the code actually recognizes: the request (or body
parse) throws, or the parsed body has `success = false`.  The HTTP status
is not consulted. -/
def analyzeFailed : AnalyzeOutcome → Prop
  | .throws _ => True
  | .responded r => r.body.success = false

/-- C10 amended: for every `/analyze` invocation that fails in a way the
code recognizes — the request throws or the parsed body has
`success = false`; the HTTP status itself is never checked — the
controller ends with `data = null`, `uploadedFile = null` and the error
message set, from any prior state (so no previously rendered dashboard
survives such a failure). -/
theorem failed_analyze_clears_state (s : AnalyzeAppState) (file : String)
    (o : AnalyzeOutcome) (h : analyzeFailed o) :
    (handleFileSelect s file o).data = none ∧
    (handleFileSelect s file o).uploadedFile = none ∧
    ∃ m, (handleFileSelect s file o).error = some m := by
  cases o with
  | throws msg => exact ⟨rfl, rfl, msg, rfl⟩
  | responded r =>
      have hb : r.body.success = false := h
      refine ⟨?_, ?_, failMsg r.body.error, ?_⟩ <;>
        simp [handleFileSelect, hb]

/-- Witness for the amended C10: a `success = false` body received while a
previous dashboard is on screen clears `data` and `uploadedFile` and sets
the error. -/
theorem failed_analyze_clears_state_witness :
    (handleFileSelect ⟨some ⟨true, none⟩, false, none, some "old.csv"⟩ "new.csv"
        (.responded ⟨true, ⟨false, some "No valid rows"⟩⟩)).data = none ∧
    (handleFileSelect ⟨some ⟨true, none⟩, false, none, some "old.csv"⟩ "new.csv"
        (.responded ⟨true, ⟨false, some "No valid rows"⟩⟩)).uploadedFile = none ∧
    ∃ m, (handleFileSelect ⟨some ⟨true, none⟩, false, none, some "old.csv"⟩ "new.csv"
        (.responded ⟨true, ⟨false, some "No valid rows"⟩⟩)).error = some m :=
  failed_analyze_clears_state ⟨some ⟨true, none⟩, false, none, some "old.csv"⟩
    "new.csv" (.responded ⟨true, ⟨false, some "No valid rows"⟩⟩) rfl

end CohortPulse
